import Mathlib

/-!
Shallow embedding of the CRM-backend project-proposal workflow
(`app/models.py`, `app/serializers.py`, `app/services.py`, `app/views.py`).

The repository is a sequence of near-duplicate revisions; the `views.py`
and `serializers.py` under `src/` belong to a later revision than the
`models.py` under `src/` (the views reference `ProjectStatus.IN_PROGRESS`,
`ProjectStatus.COMPLETED`, `Project.priority`, `Project.accepted_by`,
`Project.started_by`, `Project.completed_by` and
`ApplicationLog.interacted_by`, which the early `models.py` lacks).
Where a declaration is missing from the sources, it is modelled from the
spec, and its doc comment says so.

Conventions of the embedding:
* Database tables become lists inside a `DB` record; `save` /
  `objects.create` append or replace rows.
* Every observable side effect is additionally appended to `DB.trace`,
  so ordering claims can be stated.
* `send_mail(..., fail_silently=False)` may raise; each handler takes an
  `emailOk : Bool` oracle deciding whether the SMTP call succeeds.  When
  it fails the handler aborts with `HttpResult.serverError` exactly at
  the point the Python exception would propagate.
* Dates are day ordinals (`Nat`); decimal budgets are `Rat`.
-/

namespace CRM

/-- Modelled from the spec: the later-revision `ProjectStatus` enum
(`NEW → ACCEPTED | REJECTED`, extended with `IN_PROGRESS` and `COMPLETED`);
the `models.py` under `src/` is an earlier revision listing only the first
three members, while `views.py` references all five. -/
inductive ProjectStatus where
  | NEW
  | ACCEPTED
  | REJECTED
  | IN_PROGRESS
  | COMPLETED
deriving Repr, DecidableEq, Fintype

/-- Modelled from the spec: the later-revision `ProjectPriority` enum
imported by `serializers.py` (default `MEDIUM`); its declaration is
missing from the `models.py` under `src/`. -/
inductive ProjectPriority where
  | LOW
  | MEDIUM
  | HIGH
deriving Repr, DecidableEq

def ProjectPriority.toStr : ProjectPriority → String
  | .LOW => "LOW"
  | .MEDIUM => "MEDIUM"
  | .HIGH => "HIGH"

/-- The authenticated reviewer (`request.user`). -/
structure User where
  id : Nat
  username : String
deriving Repr, DecidableEq

/-- The `Project` row: fields of the early `models.py` plus the
later-revision fields (`priority`, `accepted_by`, `started_by`,
`completed_by`) that `views.py` and `serializers.py` reference;
the reviewer references are user ids, nullable. -/
structure Project where
  id : Nat
  title : String
  description : String
  budget : Rat
  deadline : Nat
  sender_name : String
  contact_email : String
  category : Option Nat
  status : ProjectStatus
  priority : ProjectPriority
  accepted_by : Option Nat
  started_by : Option Nat
  completed_by : Option Nat
deriving Repr, DecidableEq

/-- The `ProjectComment` row (timestamps omitted). -/
structure ProjectComment where
  project : Nat
  comment_text : String
  author_name : String
deriving Repr, DecidableEq

/-- The `ApplicationLog` row, later revision (`interacted_by` replaces
`level`; `views.py` creates all its rows with `interacted_by`). -/
structure ApplicationLog where
  message : String
  logger_name : String
  interacted_by : String
deriving Repr, DecidableEq

/-- An email handed to `send_mail`. -/
structure Email where
  subject : String
  message : String
  recipient : String
deriving Repr, DecidableEq

/-- The `Attachment` row: owning project and the stored file name. -/
structure Attachment where
  project : Nat
  fileName : String
deriving Repr, DecidableEq

/-- One observable side effect of a request, in the order it happens. -/
inductive Effect where
  | persistProject (pk : Nat) (update_fields : List String)
  | createComment (pk : Nat) (text : String) (author : String)
  | sendEmail (subject : String) (body : String) (recipient : String)
  | createLog (message : String) (logger_name : String) (interacted_by : String)
deriving Repr, DecidableEq

/-- The persistent store: one list per table, plus the effect trace. -/
structure DB where
  projects : List Project
  comments : List ProjectComment
  logs : List ApplicationLog
  emails : List Email
  attachments : List Attachment
  trace : List Effect
deriving Repr, DecidableEq

def DB.empty : DB := ⟨[], [], [], [], [], []⟩

/-- Embeds `get_object_or_404(Project, pk=pk)`: first row with the given pk. -/
def findProject (db : DB) (pk : Nat) : Option Project :=
  db.projects.find? (fun p => p.id == pk)

/-- Embeds `project.save(update_fields=[...])`: replace the row with the same id. -/
def saveProject (db : DB) (q : Project) (update_fields : List String) : DB :=
  { db with
    projects := db.projects.map (fun r => if r.id == q.id then q else r)
    trace := db.trace ++ [Effect.persistProject q.id update_fields] }

/-- Embeds `ApplicationLog.objects.create(...)`. -/
def addLog (db : DB) (message logger_name interacted_by : String) : DB :=
  { db with
    logs := db.logs ++ [⟨message, logger_name, interacted_by⟩]
    trace := db.trace ++ [Effect.createLog message logger_name interacted_by] }

/-- Embeds `services.create_comment_and_notify`: create the `ProjectComment`
row, then `send_mail(subject, comment_text, ..., [project.contact_email],
fail_silently=False)`.  Returns the updated store and whether the mail
call returned (`false` = the SMTP exception is propagating; the comment
row is already committed).  The trailing `logger.info` call writes to the
process diagnostic logger, not to any modelled table. -/
def create_comment_and_notify (db : DB) (project : Project)
    (comment_text author_name email_subject : String) (emailOk : Bool) :
    DB × Bool :=
  let db1 : DB :=
    { db with
      comments := db.comments ++ [⟨project.id, comment_text, author_name⟩]
      trace := db.trace ++ [Effect.createComment project.id comment_text author_name] }
  if emailOk then
    ({ db1 with
       emails := db1.emails ++ [⟨email_subject, comment_text, project.contact_email⟩]
       trace := db1.trace ++ [Effect.sendEmail email_subject comment_text project.contact_email] },
     true)
  else
    (db1, false)

/-- What a transition endpoint hands back to the HTTP layer. -/
inductive HttpResult where
  /-- HTTP 200: the `detail`, `status` and `comment_text` keys of the body. -/
  | ok (detail : String) (status : ProjectStatus) (comment_text : String)
  /-- HTTP 400 with an `error` key. -/
  | clientError (error : String)
  /-- HTTP 404 from `get_object_or_404`. -/
  | notFound
  /-- An uncaught exception (failed `send_mail`). -/
  | serverError
deriving Repr, DecidableEq

/-- Embeds `ProjectViewSet.accept_project` (`POST /projects/{pk}/accept`). -/
def accept_project (db : DB) (pk : Nat) (user : User)
    (comment_text? : Option String) (emailOk : Bool) : DB × HttpResult :=
  match findProject db pk with
  | none => (db, .notFound)
  | some project =>
    if project.status ≠ ProjectStatus.NEW then
      (db, .clientError "Only new projects can be accepted.")
    else
      let project := { project with
        status := ProjectStatus.ACCEPTED, accepted_by := some user.id }
      let db := saveProject db project ["status", "accepted_by"]
      let comment_text :=
        comment_text?.getD ("Project '" ++ project.title ++ "' was accepted.")
      let step := create_comment_and_notify db project comment_text user.username
        ("Project '" ++ project.title ++ "' Accepted") emailOk
      if step.2 then
        let db := addLog step.1
          ("Project '" ++ project.title ++ "' accepted by " ++ user.username ++ ".")
          "Accept project" user.username
        (db, .ok "Project accepted" project.status comment_text)
      else
        (step.1, .serverError)

/-- Embeds `ProjectViewSet.reject_project` (`POST /projects/{pk}/reject`). -/
def reject_project (db : DB) (pk : Nat) (user : User)
    (comment_text? : Option String) (emailOk : Bool) : DB × HttpResult :=
  match findProject db pk with
  | none => (db, .notFound)
  | some project =>
    if project.status ≠ ProjectStatus.NEW then
      (db, .clientError "Only new projects can be rejected.")
    else
      let project := { project with status := ProjectStatus.REJECTED }
      let db := saveProject db project ["status"]
      let comment_text :=
        comment_text?.getD ("Project '" ++ project.title ++ "' was rejected.")
      let step := create_comment_and_notify db project comment_text user.username
        ("Project '" ++ project.title ++ "' Rejected") emailOk
      if step.2 then
        let db := addLog step.1
          ("Project '" ++ project.title ++ "' rejected by " ++ user.username ++ ".")
          "Reject project" user.username
        (db, .ok "Project rejected" project.status comment_text)
      else
        (step.1, .serverError)

/-- Embeds `ProjectViewSet.start_project` (`POST /projects/{pk}/start`). -/
def start_project (db : DB) (pk : Nat) (user : User)
    (comment_text? : Option String) (emailOk : Bool) : DB × HttpResult :=
  match findProject db pk with
  | none => (db, .notFound)
  | some project =>
    if project.status ≠ ProjectStatus.ACCEPTED then
      (db, .clientError "Only accepted projects can be started.")
    else
      let project := { project with
        status := ProjectStatus.IN_PROGRESS, started_by := some user.id }
      let db := saveProject db project ["status", "started_by"]
      let comment_text :=
        comment_text?.getD ("Project '" ++ project.title ++ "' has started.")
      let step := create_comment_and_notify db project comment_text user.username
        ("Project '" ++ project.title ++ "' Started") emailOk
      if step.2 then
        let db := addLog step.1
          ("Project '" ++ project.title ++ "' started by " ++ user.username ++ ".")
          "Start project" user.username
        (db, .ok "Project started" project.status comment_text)
      else
        (step.1, .serverError)

/-- Embeds `ProjectViewSet.mark_completed` (`POST /projects/{pk}/completed`). -/
def mark_completed (db : DB) (pk : Nat) (user : User)
    (comment_text? : Option String) (emailOk : Bool) : DB × HttpResult :=
  match findProject db pk with
  | none => (db, .notFound)
  | some project =>
    if project.status ≠ ProjectStatus.IN_PROGRESS then
      (db, .clientError "Only projects in progress can be marked as completed.")
    else
      let project := { project with
        status := ProjectStatus.COMPLETED, completed_by := some user.id }
      let db := saveProject db project ["status", "completed_by"]
      let comment_text :=
        comment_text?.getD ("Project '" ++ project.title ++ "' has been completed.")
      let step := create_comment_and_notify db project comment_text user.username
        ("Project '" ++ project.title ++ "' Completed") emailOk
      if step.2 then
        let db := addLog step.1
          ("Project '" ++ project.title ++ "' marked as completed by " ++ user.username ++ ".")
          "Complete project" user.username
        (db, .ok "Project marked as completed" project.status comment_text)
      else
        (step.1, .serverError)

/-- The body of `POST /projects` as `ProjectCreateSerializer` reads it.
All of `Meta.fields` except the read-only timestamps are writable,
including `status` and `priority`, which carry declared defaults
(`NEW`, `MEDIUM`) used when the key is absent. -/
structure ProjectCreateInput where
  title : String
  description : String
  budget : Rat
  deadline : Nat
  sender_name : String
  contact_email : String
  category : Option Nat
  status : Option ProjectStatus
  priority : Option ProjectPriority
deriving Repr, DecidableEq

/-- Embeds `ProjectCreateSerializer.validate_deadline`: reject a deadline
strictly before today (`value < timezone.now().date()`). -/
def validate_deadline (today : Nat) (value : Nat) : Except String Nat :=
  if value < today then Except.error "The deadline cannot be in the past."
  else Except.ok value

/-- Result of `POST /projects`. -/
inductive CreateResult where
  | created (p : Project)
  /-- HTTP 400 from serializer validation; nothing persisted. -/
  | validationError (error : String)
  /-- An uncaught exception (failed `send_mail`); the project row and
  the audit-log row are already committed. -/
  | serverError
deriving Repr, DecidableEq

/-- Embeds `POST /projects`: serializer validation, then
`ProjectViewSet.perform_create` — `serializer.save()`, then
`ApplicationLog.objects.create(...)`, then the confirmation
`send_mail(..., fail_silently=False)`.  `today` is
`timezone.now().date()` and `nextId` the id the database assigns. -/
def createProject (db : DB) (today : Nat) (nextId : Nat)
    (input : ProjectCreateInput) (emailOk : Bool) : DB × CreateResult :=
  match validate_deadline today input.deadline with
  | Except.error e => (db, .validationError e)
  | Except.ok _ =>
    let p : Project :=
      { id := nextId
        title := input.title
        description := input.description
        budget := input.budget
        deadline := input.deadline
        sender_name := input.sender_name
        contact_email := input.contact_email
        category := input.category
        status := input.status.getD ProjectStatus.NEW
        priority := input.priority.getD ProjectPriority.MEDIUM
        accepted_by := none
        started_by := none
        completed_by := none }
    let db := { db with
      projects := db.projects ++ [p]
      trace := db.trace ++ [Effect.persistProject p.id []] }
    let db := addLog db
      ("Project '" ++ p.title ++ "' with priority '" ++ p.priority.toStr ++
        "' created by " ++ p.sender_name ++ ".")
      "Create project" p.sender_name
    if emailOk then
      let db := { db with
        emails := db.emails ++
          [⟨"Thank you for your project proposal",
            "We received your proposal '" ++ p.title ++ "'. Our team will review it soon.",
            p.contact_email⟩]
        trace := db.trace ++
          [Effect.sendEmail "Thank you for your project proposal"
            ("We received your proposal '" ++ p.title ++ "'. Our team will review it soon.")
            p.contact_email] }
      (db, .created p)
    else
      (db, .serverError)

/-- An uploaded file as DRF sees it: name, size in bytes, and the
declared `content_type` attribute, which may be absent. -/
structure UploadedFile where
  name : String
  size : Nat
  content_type : Option String
deriving Repr, DecidableEq

def max_file_size : Nat := 5 * 1024 * 1024

def allowed_file_types : List String :=
  [ "image/jpeg"
  , "image/png"
  , "application/pdf"
  , "application/msword"
  , "application/vnd.openxmlformats-officedocument.wordprocessingml.document"
  , "text/plain" ]

/-- Embeds `AttachmentSerializer.validate_file`: size ceiling first, then the
content-type allow-list; `getattr(value, 'content_type', None)` followed
by `if not file_type or file_type not in allowed_file_types` rejects an
absent or empty content type the same way as a disallowed one. -/
def validate_file (value : UploadedFile) : Except String UploadedFile :=
  if value.size > max_file_size then
    Except.error "File size must not exceed 5MB."
  else
    let fileTypeOk : Bool :=
      match value.content_type with
      | none => false
      | some t => t ≠ "" && allowed_file_types.contains t
    if fileTypeOk then Except.ok value
    else Except.error "Invalid file type. Allowed types: JPEG, PNG, PDF, Word, and TXT."

/-- Embeds `POST /attachments` (`AttachmentViewSet` with `AttachmentSerializer`):
the `project` primary-key field must refer to an existing project and
`validate_file` must pass before the row is stored. -/
def uploadAttachment (db : DB) (pk : Nat) (file : UploadedFile) :
    DB × Except String Attachment :=
  match findProject db pk with
  | none => (db, Except.error "Invalid pk - object does not exist.")
  | some _ =>
    match validate_file file with
    | Except.error e => (db, Except.error e)
    | Except.ok f =>
      let a : Attachment := ⟨pk, f.name⟩
      ({ db with attachments := db.attachments ++ [a] }, Except.ok a)

/-- The `budget: ['gte', 'lte']` entry of
`ProjectViewSet.filterset_fields`: `budget__gte` and `budget__lte`
compose as inclusive SQL bounds over the queryset. -/
def budgetRangeFilter (gte lte : Rat) (l : List Project) : List Project :=
  l.filter (fun p => decide (gte ≤ p.budget) && decide (p.budget ≤ lte))

/-- One reviewer request against the transition endpoints of
`ProjectViewSet`. -/
inductive Op where
  | accept (pk : Nat) (user : User) (ct : Option String) (emailOk : Bool)
  | reject (pk : Nat) (user : User) (ct : Option String) (emailOk : Bool)
  | start (pk : Nat) (user : User) (ct : Option String) (emailOk : Bool)
  | complete (pk : Nat) (user : User) (ct : Option String) (emailOk : Bool)
deriving Repr, DecidableEq

/-- The store after one transition request (its HTTP result dropped). -/
def applyOp (db : DB) (op : Op) : DB :=
  match op with
  | .accept pk u ct e => (accept_project db pk u ct e).1
  | .reject pk u ct e => (reject_project db pk u ct e).1
  | .start pk u ct e => (start_project db pk u ct e).1
  | .complete pk u ct e => (mark_completed db pk u ct e).1

/-- The store after a sequence of transition requests. -/
def applyOps (db : DB) (ops : List Op) : DB := ops.foldl applyOp db

/-- The reachability order of the lifecycle graph
`NEW → ACCEPTED → IN_PROGRESS → COMPLETED` and `NEW → REJECTED`:
`forwardReach s t` holds when `t` is `s` or lies strictly ahead of `s`
along an edge path.  `REJECTED` is ahead only of `NEW`, and `REJECTED`
and `COMPLETED` are ahead of nothing, so they are terminal. -/
def forwardReach : ProjectStatus → ProjectStatus → Bool
  | .NEW, _ => true
  | .ACCEPTED, .ACCEPTED => true
  | .ACCEPTED, .IN_PROGRESS => true
  | .ACCEPTED, .COMPLETED => true
  | .IN_PROGRESS, .IN_PROGRESS => true
  | .IN_PROGRESS, .COMPLETED => true
  | .REJECTED, .REJECTED => true
  | .COMPLETED, .COMPLETED => true
  | _, _ => false

/-- A concrete project used by witness theorems. -/
def projectOne : Project :=
  { id := 1
    title := "Site"
    description := "Build a site"
    budget := 2000
    deadline := 40
    sender_name := "Ada"
    contact_email := "ada@example.com"
    category := none
    status := ProjectStatus.NEW
    priority := ProjectPriority.MEDIUM
    accepted_by := none
    started_by := none
    completed_by := none }

/-- A store holding just `projectOne`, used by witness theorems. -/
def dbOne : DB := { DB.empty with projects := [projectOne] }

/-- A concrete reviewer used by witness theorems. -/
def userOne : User := ⟨7, "boss"⟩

/-- A concrete well-formed creation input used by witness theorems. -/
def inputOne : ProjectCreateInput :=
  { title := "Shop"
    description := "Build a shop"
    budget := 3000
    deadline := 40
    sender_name := "Bob"
    contact_email := "bob@example.com"
    category := none
    status := none
    priority := none }

/-- A creation input that explicitly submits `status = ACCEPTED`;
every field passes its serializer validation (`ACCEPTED` is among the
`ProjectStatus.choices`), so the create endpoint accepts it. -/
def inputAccepted : ProjectCreateInput :=
  { inputOne with status := some ProjectStatus.ACCEPTED }

/-- The project row `createProject` persists for `inputAccepted`
(id 2, today = 40). -/
def projectAccepted2 : Project :=
  { id := 2
    title := "Shop"
    description := "Build a shop"
    budget := 3000
    deadline := 40
    sender_name := "Bob"
    contact_email := "bob@example.com"
    category := none
    status := ProjectStatus.ACCEPTED
    priority := ProjectPriority.MEDIUM
    accepted_by := none
    started_by := none
    completed_by := none }

/-- The row `projectOne` becomes after a successful accept followed by a successful
start, both by `userOne`. -/
def projectOneStarted : Project :=
  { projectOne with
    status := ProjectStatus.IN_PROGRESS
    accepted_by := some userOne.id
    started_by := some userOne.id }

/-- A concrete two-request sequence: accept then start on project 1. -/
def opsAcceptStart : List Op :=
  [Op.accept 1 userOne none true, Op.start 1 userOne none true]

/-- C5: attachment upload validation.  With the owning project present:
a file strictly larger than 5 MiB is rejected with the size message
whatever its content type; a file within the size bound whose declared
content type is outside the allow-list is rejected with the type
message; a 1 KiB `image/png` file is accepted and appended to the
store; both rejections leave the store untouched (no storage write). -/
theorem C5_attachment_upload_validation (db : DB) (pk : Nat) (p : Project)
    (file : UploadedFile) (hp : findProject db pk = some p) :
    (max_file_size < file.size →
      uploadAttachment db pk file =
        (db, Except.error "File size must not exceed 5MB.")) ∧
    (file.size ≤ max_file_size →
      ∀ t, file.content_type = some t → t ∉ allowed_file_types →
        uploadAttachment db pk file =
          (db, Except.error
            "Invalid file type. Allowed types: JPEG, PNG, PDF, Word, and TXT.")) ∧
    (file.size = 1024 → file.content_type = some "image/png" →
      uploadAttachment db pk file =
        ({ db with attachments := db.attachments ++ [⟨pk, file.name⟩] },
          Except.ok ⟨pk, file.name⟩)) := by
  refine ⟨?_, ?_, ?_⟩
  · intro hsize
    unfold uploadAttachment validate_file
    rw [hp, if_pos hsize]
  · intro hsize t ht hnot
    unfold uploadAttachment validate_file
    rw [hp, if_neg (by omega), ht]
    simp [hnot]
  · intro hsize ht
    unfold uploadAttachment validate_file
    rw [hp, if_neg (by rw [hsize]; decide), ht]
    simp [allowed_file_types]

/-- C5 witness: a 6 MiB PDF is rejected with the size message, a 1 KiB
zip with the type message, and a 1 KiB PNG accepted, on a store holding
one project. -/
theorem C5_attachment_upload_validation_witness :
    uploadAttachment dbOne 1 ⟨"a.pdf", 6 * 1024 * 1024, some "application/pdf"⟩ =
      (dbOne, Except.error "File size must not exceed 5MB.") ∧
    uploadAttachment dbOne 1 ⟨"a.zip", 1024, some "application/zip"⟩ =
      (dbOne, Except.error
        "Invalid file type. Allowed types: JPEG, PNG, PDF, Word, and TXT.") ∧
    uploadAttachment dbOne 1 ⟨"a.png", 1024, some "image/png"⟩ =
      ({ dbOne with attachments := [⟨1, "a.png"⟩] }, Except.ok ⟨1, "a.png"⟩) := by
  refine ⟨?_, ?_, ?_⟩
  · exact (C5_attachment_upload_validation dbOne 1 projectOne _ (by decide)).1
      (by decide)
  · exact (C5_attachment_upload_validation dbOne 1 projectOne _ (by decide)).2.1
      (by decide) "application/zip" rfl (by decide)
  · exact (C5_attachment_upload_validation dbOne 1 projectOne _ (by decide)).2.2
      rfl rfl

/-- C10: a file whose declared content type is absent or empty is never
accepted; within the size bound the rejection carries the same
invalid-file-type error a disallowed type gets, and the store is
untouched. -/
theorem C10_missing_content_type_rejected (db : DB) (pk : Nat) (p : Project)
    (file : UploadedFile) (hp : findProject db pk = some p)
    (hct : file.content_type = none ∨ file.content_type = some "") :
    (∀ a, (uploadAttachment db pk file).2 ≠ Except.ok a) ∧
    (file.size ≤ max_file_size →
      uploadAttachment db pk file =
        (db, Except.error
          "Invalid file type. Allowed types: JPEG, PNG, PDF, Word, and TXT.")) := by
  constructor
  · intro a
    unfold uploadAttachment validate_file
    rw [hp]
    by_cases hsize : max_file_size < file.size
    · rw [if_pos hsize]
      simp
    · rw [if_neg hsize]
      rcases hct with h | h <;> rw [h] <;> simp
  · intro hsize
    unfold uploadAttachment validate_file
    rw [hp, if_neg (by omega)]
    rcases hct with h | h <;> rw [h] <;> simp

/-- C10 witness: a 1 KiB file with no declared content type is rejected
with the invalid-file-type error on a store holding one project. -/
theorem C10_missing_content_type_rejected_witness :
    uploadAttachment dbOne 1 ⟨"blob", 1024, none⟩ =
      (dbOne, Except.error
        "Invalid file type. Allowed types: JPEG, PNG, PDF, Word, and TXT.") :=
  (C10_missing_content_type_rejected dbOne 1 projectOne _ (by decide)
    (Or.inl rfl)).2 (by decide)

/-- C6: creating a project with a deadline strictly before the current
date fails validation with the past-deadline message and persists
nothing (the store is returned unchanged); a deadline equal to the
current date or later passes `validate_deadline`. -/
theorem C6_deadline_validation (db : DB) (today nextId : Nat)
    (input : ProjectCreateInput) (emailOk : Bool) :
    (input.deadline < today →
      createProject db today nextId input emailOk =
        (db, CreateResult.validationError "The deadline cannot be in the past.")) ∧
    (today ≤ input.deadline →
      validate_deadline today input.deadline = Except.ok input.deadline) := by
  constructor
  · intro h
    unfold createProject validate_deadline
    rw [if_pos h]
  · intro h
    unfold validate_deadline
    rw [if_neg (by omega)]

/-- C6 witness: with today = 40, a deadline of 39 is rejected with the
store unchanged, and a deadline of 40 passes the check. -/
theorem C6_deadline_validation_witness :
    createProject dbOne 40 2 { inputOne with deadline := 39 } true =
      (dbOne, CreateResult.validationError "The deadline cannot be in the past.") ∧
    validate_deadline 40 40 = Except.ok 40 :=
  ⟨(C6_deadline_validation dbOne 40 2 { inputOne with deadline := 39 } true).1
      (by decide),
   (C6_deadline_validation dbOne 40 2 inputOne true).2 (by decide)⟩

/-- C8: the inclusive budget range filter `budget__gte=1000` and
`budget__lte=5000` keeps exactly the projects with
`1000 ≤ budget ≤ 5000`. -/
theorem C8_budget_range_filter (l : List Project) (p : Project) :
    p ∈ budgetRangeFilter 1000 5000 l ↔
      p ∈ l ∧ (1000 : Rat) ≤ p.budget ∧ p.budget ≤ 5000 := by
  simp [budgetRangeFilter, List.mem_filter, and_assoc]

/-- C8 witness: on a four-project list the filter keeps exactly the
budgets 1000, 2000 and 5000 and drops 999.5 and 5000.01. -/
theorem C8_budget_range_filter_witness :
    projectOne ∈ budgetRangeFilter 1000 5000
      [{ projectOne with budget := (1999 : Rat) / 2 }, projectOne,
        { projectOne with budget := (500001 : Rat) / 100 }] :=
  (C8_budget_range_filter _ projectOne).mpr
    ⟨by simp, by norm_num [projectOne], by norm_num [projectOne]⟩

/-- A row found by primary key carries that primary key. -/
theorem findProject_id (db : DB) (pk : Nat) (p : Project)
    (hp : findProject db pk = some p) : p.id = pk := by
  unfold findProject at hp
  simpa using List.find?_some hp

/-- Replacing the row whose id equals `q.id` preserves every row's id,
so `find?` by primary key commutes with the replacement. -/
theorem find?_replace (l : List Project) (q : Project) (pk : Nat) :
    (l.map (fun r => if r.id == q.id then q else r)).find? (fun r => r.id == pk)
      = (l.find? (fun r => r.id == pk)).map
          (fun r => if r.id == q.id then q else r) := by
  rw [List.find?_map]
  have hfun : ((fun r : Project => r.id == pk) ∘
      fun r => if r.id == q.id then q else r) = (fun r : Project => r.id == pk) := by
    funext r
    by_cases h : r.id == q.id
    · have hid : r.id = q.id := by simpa using h
      simp [Function.comp, h, hid]
    · simp [Function.comp, h]
  rw [hfun]

/-- The row a transition saves is the one `findProject` returns
afterwards, whatever other tables the handler touched: stated for any
store whose project table is the saved one. -/
theorem findProject_after_replace (db : DB) (q : Project) (pk : Nat)
    (p : Project) (hp : findProject db pk = some p) (hq : q.id = p.id)
    (l : List Project)
    (hl : l = db.projects.map (fun r => if r.id == q.id then q else r)) :
    l.find? (fun r => r.id == pk) = some q := by
  subst hl
  rw [find?_replace]
  unfold findProject at hp
  rw [hp]
  simp [hq]

/-- C1: the transition guards.  With project `p` present at `pk`:
`accept` succeeds (HTTP 200, status ACCEPTED) exactly from `NEW`,
`start` exactly from `ACCEPTED`, `completed` exactly from
`IN_PROGRESS`; each out-of-order attempt returns the 400 guard error
with the store completely unchanged — same status, no comment, no
notification, no audit-log entry. -/
theorem C1_transition_guards (db : DB) (pk : Nat) (user : User)
    (ct : Option String) (p : Project) (hp : findProject db pk = some p) :
    (p.status = ProjectStatus.NEW →
      (accept_project db pk user ct true).2 =
        HttpResult.ok "Project accepted" ProjectStatus.ACCEPTED
          (ct.getD ("Project '" ++ p.title ++ "' was accepted."))) ∧
    (p.status = ProjectStatus.ACCEPTED →
      (start_project db pk user ct true).2 =
        HttpResult.ok "Project started" ProjectStatus.IN_PROGRESS
          (ct.getD ("Project '" ++ p.title ++ "' has started."))) ∧
    (p.status = ProjectStatus.IN_PROGRESS →
      (mark_completed db pk user ct true).2 =
        HttpResult.ok "Project marked as completed" ProjectStatus.COMPLETED
          (ct.getD ("Project '" ++ p.title ++ "' has been completed."))) ∧
    (p.status ≠ ProjectStatus.NEW → ∀ emailOk,
      accept_project db pk user ct emailOk =
        (db, HttpResult.clientError "Only new projects can be accepted.")) ∧
    (p.status ≠ ProjectStatus.ACCEPTED → ∀ emailOk,
      start_project db pk user ct emailOk =
        (db, HttpResult.clientError "Only accepted projects can be started.")) ∧
    (p.status ≠ ProjectStatus.IN_PROGRESS → ∀ emailOk,
      mark_completed db pk user ct emailOk =
        (db, HttpResult.clientError
          "Only projects in progress can be marked as completed.")) := by
  refine ⟨?_, ?_, ?_, ?_, ?_, ?_⟩
  · intro hs
    simp [accept_project, hp, hs, create_comment_and_notify]
  · intro hs
    simp [start_project, hp, hs, create_comment_and_notify]
  · intro hs
    simp [mark_completed, hp, hs, create_comment_and_notify]
  · intro hs emailOk
    simp [accept_project, hp, hs]
  · intro hs emailOk
    simp [start_project, hp, hs]
  · intro hs emailOk
    simp [mark_completed, hp, hs]

/-- C1 witness: on a store with one NEW project, `completed` fails with
the guard error leaving the store untouched, `accept` succeeds, and on
the store after the accept a second `accept` fails with the guard
error. -/
theorem C1_transition_guards_witness :
    (mark_completed dbOne 1 userOne none true =
      (dbOne, HttpResult.clientError
        "Only projects in progress can be marked as completed.")) ∧
    ((accept_project dbOne 1 userOne none true).2 =
      HttpResult.ok "Project accepted" ProjectStatus.ACCEPTED
        "Project 'Site' was accepted.") ∧
    (accept_project (applyOps dbOne [Op.accept 1 userOne none true]) 1 userOne
        none true =
      (applyOps dbOne [Op.accept 1 userOne none true],
        HttpResult.clientError "Only new projects can be accepted.")) := by
  refine ⟨?_, ?_, ?_⟩
  · exact (C1_transition_guards dbOne 1 userOne none projectOne
      (by decide)).2.2.2.2.2 (by decide) true
  · exact (C1_transition_guards dbOne 1 userOne none projectOne (by decide)).1 rfl
  · exact (C1_transition_guards (applyOps dbOne [Op.accept 1 userOne none true])
      1 userOne none
      { projectOne with
        status := ProjectStatus.ACCEPTED, accepted_by := some userOne.id }
      (by decide)).2.2.2.1 (by decide) true

/-- C7: every successful transition (guard satisfied, mail delivered)
appends exactly one new comment row and exactly one new audit-log row —
each table becomes the old table plus a single row. -/
theorem C7_one_comment_one_log (db : DB) (pk : Nat) (user : User)
    (ct : Option String) (p : Project) (hp : findProject db pk = some p) :
    (p.status = ProjectStatus.NEW → ∃ c lg,
      (accept_project db pk user ct true).1.comments = db.comments ++ [c] ∧
      (accept_project db pk user ct true).1.logs = db.logs ++ [lg]) ∧
    (p.status = ProjectStatus.NEW → ∃ c lg,
      (reject_project db pk user ct true).1.comments = db.comments ++ [c] ∧
      (reject_project db pk user ct true).1.logs = db.logs ++ [lg]) ∧
    (p.status = ProjectStatus.ACCEPTED → ∃ c lg,
      (start_project db pk user ct true).1.comments = db.comments ++ [c] ∧
      (start_project db pk user ct true).1.logs = db.logs ++ [lg]) ∧
    (p.status = ProjectStatus.IN_PROGRESS → ∃ c lg,
      (mark_completed db pk user ct true).1.comments = db.comments ++ [c] ∧
      (mark_completed db pk user ct true).1.logs = db.logs ++ [lg]) := by
  refine ⟨?_, ?_, ?_, ?_⟩
  · intro hs
    exact ⟨⟨p.id, ct.getD ("Project '" ++ p.title ++ "' was accepted."), user.username⟩,
      ⟨"Project '" ++ p.title ++ "' accepted by " ++ user.username ++ ".",
        "Accept project", user.username⟩,
      by simp [accept_project, hp, hs, create_comment_and_notify, saveProject, addLog],
      by simp [accept_project, hp, hs, create_comment_and_notify, saveProject, addLog]⟩
  · intro hs
    exact ⟨⟨p.id, ct.getD ("Project '" ++ p.title ++ "' was rejected."), user.username⟩,
      ⟨"Project '" ++ p.title ++ "' rejected by " ++ user.username ++ ".",
        "Reject project", user.username⟩,
      by simp [reject_project, hp, hs, create_comment_and_notify, saveProject, addLog],
      by simp [reject_project, hp, hs, create_comment_and_notify, saveProject, addLog]⟩
  · intro hs
    exact ⟨⟨p.id, ct.getD ("Project '" ++ p.title ++ "' has started."), user.username⟩,
      ⟨"Project '" ++ p.title ++ "' started by " ++ user.username ++ ".",
        "Start project", user.username⟩,
      by simp [start_project, hp, hs, create_comment_and_notify, saveProject, addLog],
      by simp [start_project, hp, hs, create_comment_and_notify, saveProject, addLog]⟩
  · intro hs
    exact ⟨⟨p.id, ct.getD ("Project '" ++ p.title ++ "' has been completed."), user.username⟩,
      ⟨"Project '" ++ p.title ++ "' marked as completed by " ++ user.username ++ ".",
        "Complete project", user.username⟩,
      by simp [mark_completed, hp, hs, create_comment_and_notify, saveProject, addLog],
      by simp [mark_completed, hp, hs, create_comment_and_notify, saveProject, addLog]⟩

/-- C7 witness: a successful accept on a one-project store yields
exactly one comment row and exactly one log row. -/
theorem C7_one_comment_one_log_witness :
    ∃ c lg, (accept_project dbOne 1 userOne none true).1.comments = [c] ∧
      (accept_project dbOne 1 userOne none true).1.logs = [lg] := by
  obtain ⟨c, lg, hc, hl⟩ :=
    (C7_one_comment_one_log dbOne 1 userOne none projectOne (by decide)).1 rfl
  exact ⟨c, lg, by simpa [dbOne, DB.empty] using hc, by simpa [dbOne, DB.empty] using hl⟩

/-- C9: the frame of each successful transition.  The persisted update
names only `status` plus the reviewer field of that transition, and the
project row afterwards is the old row with exactly those fields
changed: `accept` sets `status`/`accepted_by`, `start`
`status`/`started_by`, `completed` `status`/`completed_by`, and
`reject` sets only `status`, touching no reviewer field; all other
fields (title, description, budget, deadline, sender, contact email,
category, priority) keep their values. -/
theorem C9_transition_frame (db : DB) (pk : Nat) (user : User)
    (ct : Option String) (emailOk : Bool) (p : Project)
    (hp : findProject db pk = some p) :
    (p.status = ProjectStatus.NEW →
      (∃ rest, (accept_project db pk user ct emailOk).1.trace =
        db.trace ++ Effect.persistProject p.id ["status", "accepted_by"] :: rest) ∧
      findProject (accept_project db pk user ct emailOk).1 pk =
        some { p with status := ProjectStatus.ACCEPTED,
                      accepted_by := some user.id }) ∧
    (p.status = ProjectStatus.NEW →
      (∃ rest, (reject_project db pk user ct emailOk).1.trace =
        db.trace ++ Effect.persistProject p.id ["status"] :: rest) ∧
      findProject (reject_project db pk user ct emailOk).1 pk =
        some { p with status := ProjectStatus.REJECTED }) ∧
    (p.status = ProjectStatus.ACCEPTED →
      (∃ rest, (start_project db pk user ct emailOk).1.trace =
        db.trace ++ Effect.persistProject p.id ["status", "started_by"] :: rest) ∧
      findProject (start_project db pk user ct emailOk).1 pk =
        some { p with status := ProjectStatus.IN_PROGRESS,
                      started_by := some user.id }) ∧
    (p.status = ProjectStatus.IN_PROGRESS →
      (∃ rest, (mark_completed db pk user ct emailOk).1.trace =
        db.trace ++ Effect.persistProject p.id ["status", "completed_by"] :: rest) ∧
      findProject (mark_completed db pk user ct emailOk).1 pk =
        some { p with status := ProjectStatus.COMPLETED,
                      completed_by := some user.id }) := by
  refine ⟨?_, ?_, ?_, ?_⟩
  · intro hs
    refine ⟨?_, ?_⟩
    · refine ⟨if emailOk then
          [Effect.createComment p.id
            (ct.getD ("Project '" ++ p.title ++ "' was accepted.")) user.username,
           Effect.sendEmail ("Project '" ++ p.title ++ "' Accepted")
            (ct.getD ("Project '" ++ p.title ++ "' was accepted.")) p.contact_email,
           Effect.createLog
            ("Project '" ++ p.title ++ "' accepted by " ++ user.username ++ ".")
            "Accept project" user.username]
        else
          [Effect.createComment p.id
            (ct.getD ("Project '" ++ p.title ++ "' was accepted.")) user.username], ?_⟩
      cases emailOk <;>
        simp [accept_project, hp, hs, create_comment_and_notify, saveProject,
          addLog, List.append_assoc]
    · have hproj : (accept_project db pk user ct emailOk).1.projects
          = db.projects.map (fun r => if r.id == p.id
              then { p with status := ProjectStatus.ACCEPTED, accepted_by := some user.id }
              else r) := by
        cases emailOk <;>
          simp [accept_project, hp, hs, create_comment_and_notify, saveProject, addLog]
      exact findProject_after_replace db
        { p with status := ProjectStatus.ACCEPTED, accepted_by := some user.id }
        pk p hp rfl _ hproj
  · intro hs
    refine ⟨?_, ?_⟩
    · refine ⟨if emailOk then
          [Effect.createComment p.id
            (ct.getD ("Project '" ++ p.title ++ "' was rejected.")) user.username,
           Effect.sendEmail ("Project '" ++ p.title ++ "' Rejected")
            (ct.getD ("Project '" ++ p.title ++ "' was rejected.")) p.contact_email,
           Effect.createLog
            ("Project '" ++ p.title ++ "' rejected by " ++ user.username ++ ".")
            "Reject project" user.username]
        else
          [Effect.createComment p.id
            (ct.getD ("Project '" ++ p.title ++ "' was rejected.")) user.username], ?_⟩
      cases emailOk <;>
        simp [reject_project, hp, hs, create_comment_and_notify, saveProject,
          addLog, List.append_assoc]
    · have hproj : (reject_project db pk user ct emailOk).1.projects
          = db.projects.map (fun r => if r.id == p.id
              then { p with status := ProjectStatus.REJECTED }
              else r) := by
        cases emailOk <;>
          simp [reject_project, hp, hs, create_comment_and_notify, saveProject, addLog]
      exact findProject_after_replace db
        { p with status := ProjectStatus.REJECTED }
        pk p hp rfl _ hproj
  · intro hs
    refine ⟨?_, ?_⟩
    · refine ⟨if emailOk then
          [Effect.createComment p.id
            (ct.getD ("Project '" ++ p.title ++ "' has started.")) user.username,
           Effect.sendEmail ("Project '" ++ p.title ++ "' Started")
            (ct.getD ("Project '" ++ p.title ++ "' has started.")) p.contact_email,
           Effect.createLog
            ("Project '" ++ p.title ++ "' started by " ++ user.username ++ ".")
            "Start project" user.username]
        else
          [Effect.createComment p.id
            (ct.getD ("Project '" ++ p.title ++ "' has started.")) user.username], ?_⟩
      cases emailOk <;>
        simp [start_project, hp, hs, create_comment_and_notify, saveProject,
          addLog, List.append_assoc]
    · have hproj : (start_project db pk user ct emailOk).1.projects
          = db.projects.map (fun r => if r.id == p.id
              then { p with status := ProjectStatus.IN_PROGRESS, started_by := some user.id }
              else r) := by
        cases emailOk <;>
          simp [start_project, hp, hs, create_comment_and_notify, saveProject, addLog]
      exact findProject_after_replace db
        { p with status := ProjectStatus.IN_PROGRESS, started_by := some user.id }
        pk p hp rfl _ hproj
  · intro hs
    refine ⟨?_, ?_⟩
    · refine ⟨if emailOk then
          [Effect.createComment p.id
            (ct.getD ("Project '" ++ p.title ++ "' has been completed.")) user.username,
           Effect.sendEmail ("Project '" ++ p.title ++ "' Completed")
            (ct.getD ("Project '" ++ p.title ++ "' has been completed.")) p.contact_email,
           Effect.createLog
            ("Project '" ++ p.title ++ "' marked as completed by " ++ user.username ++ ".")
            "Complete project" user.username]
        else
          [Effect.createComment p.id
            (ct.getD ("Project '" ++ p.title ++ "' has been completed.")) user.username], ?_⟩
      cases emailOk <;>
        simp [mark_completed, hp, hs, create_comment_and_notify, saveProject,
          addLog, List.append_assoc]
    · have hproj : (mark_completed db pk user ct emailOk).1.projects
          = db.projects.map (fun r => if r.id == p.id
              then { p with status := ProjectStatus.COMPLETED, completed_by := some user.id }
              else r) := by
        cases emailOk <;>
          simp [mark_completed, hp, hs, create_comment_and_notify, saveProject, addLog]
      exact findProject_after_replace db
        { p with status := ProjectStatus.COMPLETED, completed_by := some user.id }
        pk p hp rfl _ hproj

/-- C9 witness: after accepting and after rejecting the one NEW project
of a concrete store, the row is the old row with exactly the claimed
fields changed. -/
theorem C9_transition_frame_witness :
    findProject (accept_project dbOne 1 userOne none true).1 1 =
      some { projectOne with status := ProjectStatus.ACCEPTED,
                             accepted_by := some userOne.id } ∧
    findProject (reject_project dbOne 1 userOne none true).1 1 =
      some { projectOne with status := ProjectStatus.REJECTED } :=
  ⟨((C9_transition_frame dbOne 1 userOne none true projectOne (by decide)).1 rfl).2,
   ((C9_transition_frame dbOne 1 userOne none true projectOne
      (by decide)).2.1 rfl).2⟩

/-- C4: side-effect order of every transition.  With the guard
satisfied, the effect trace extends in exactly the order persist
mutation → comment → notification → audit log, and the 200 body carries
the new state and the comment text; when the notification dispatch
fails, the request ends in a server error after persist and comment —
the status change is already persisted and stays (no rollback), and no
audit-log effect happens. -/
theorem C4_side_effect_order (db : DB) (pk : Nat) (user : User)
    (ct : Option String) (p : Project) (hp : findProject db pk = some p) :
    (p.status = ProjectStatus.NEW →
      ((accept_project db pk user ct true).2 =
          HttpResult.ok "Project accepted" ProjectStatus.ACCEPTED
            (ct.getD ("Project '" ++ p.title ++ "' was accepted.")) ∧
        (accept_project db pk user ct true).1.trace = db.trace ++
          [Effect.persistProject p.id ["status", "accepted_by"],
           Effect.createComment p.id
             (ct.getD ("Project '" ++ p.title ++ "' was accepted.")) user.username,
           Effect.sendEmail ("Project '" ++ p.title ++ "' Accepted")
             (ct.getD ("Project '" ++ p.title ++ "' was accepted.")) p.contact_email,
           Effect.createLog
             ("Project '" ++ p.title ++ "' accepted by " ++ user.username ++ ".")
             "Accept project" user.username]) ∧
      ((accept_project db pk user ct false).2 = HttpResult.serverError ∧
        (accept_project db pk user ct false).1.trace = db.trace ++
          [Effect.persistProject p.id ["status", "accepted_by"],
           Effect.createComment p.id
             (ct.getD ("Project '" ++ p.title ++ "' was accepted.")) user.username] ∧
        findProject (accept_project db pk user ct false).1 pk =
          some { p with status := ProjectStatus.ACCEPTED,
                        accepted_by := some user.id })) ∧
    (p.status = ProjectStatus.NEW →
      ((reject_project db pk user ct true).2 =
          HttpResult.ok "Project rejected" ProjectStatus.REJECTED
            (ct.getD ("Project '" ++ p.title ++ "' was rejected.")) ∧
        (reject_project db pk user ct true).1.trace = db.trace ++
          [Effect.persistProject p.id ["status"],
           Effect.createComment p.id
             (ct.getD ("Project '" ++ p.title ++ "' was rejected.")) user.username,
           Effect.sendEmail ("Project '" ++ p.title ++ "' Rejected")
             (ct.getD ("Project '" ++ p.title ++ "' was rejected.")) p.contact_email,
           Effect.createLog
             ("Project '" ++ p.title ++ "' rejected by " ++ user.username ++ ".")
             "Reject project" user.username]) ∧
      ((reject_project db pk user ct false).2 = HttpResult.serverError ∧
        (reject_project db pk user ct false).1.trace = db.trace ++
          [Effect.persistProject p.id ["status"],
           Effect.createComment p.id
             (ct.getD ("Project '" ++ p.title ++ "' was rejected.")) user.username] ∧
        findProject (reject_project db pk user ct false).1 pk =
          some { p with status := ProjectStatus.REJECTED })) ∧
    (p.status = ProjectStatus.ACCEPTED →
      ((start_project db pk user ct true).2 =
          HttpResult.ok "Project started" ProjectStatus.IN_PROGRESS
            (ct.getD ("Project '" ++ p.title ++ "' has started.")) ∧
        (start_project db pk user ct true).1.trace = db.trace ++
          [Effect.persistProject p.id ["status", "started_by"],
           Effect.createComment p.id
             (ct.getD ("Project '" ++ p.title ++ "' has started.")) user.username,
           Effect.sendEmail ("Project '" ++ p.title ++ "' Started")
             (ct.getD ("Project '" ++ p.title ++ "' has started.")) p.contact_email,
           Effect.createLog
             ("Project '" ++ p.title ++ "' started by " ++ user.username ++ ".")
             "Start project" user.username]) ∧
      ((start_project db pk user ct false).2 = HttpResult.serverError ∧
        (start_project db pk user ct false).1.trace = db.trace ++
          [Effect.persistProject p.id ["status", "started_by"],
           Effect.createComment p.id
             (ct.getD ("Project '" ++ p.title ++ "' has started.")) user.username] ∧
        findProject (start_project db pk user ct false).1 pk =
          some { p with status := ProjectStatus.IN_PROGRESS,
                        started_by := some user.id })) ∧
    (p.status = ProjectStatus.IN_PROGRESS →
      ((mark_completed db pk user ct true).2 =
          HttpResult.ok "Project marked as completed" ProjectStatus.COMPLETED
            (ct.getD ("Project '" ++ p.title ++ "' has been completed.")) ∧
        (mark_completed db pk user ct true).1.trace = db.trace ++
          [Effect.persistProject p.id ["status", "completed_by"],
           Effect.createComment p.id
             (ct.getD ("Project '" ++ p.title ++ "' has been completed.")) user.username,
           Effect.sendEmail ("Project '" ++ p.title ++ "' Completed")
             (ct.getD ("Project '" ++ p.title ++ "' has been completed.")) p.contact_email,
           Effect.createLog
             ("Project '" ++ p.title ++ "' marked as completed by " ++ user.username ++ ".")
             "Complete project" user.username]) ∧
      ((mark_completed db pk user ct false).2 = HttpResult.serverError ∧
        (mark_completed db pk user ct false).1.trace = db.trace ++
          [Effect.persistProject p.id ["status", "completed_by"],
           Effect.createComment p.id
             (ct.getD ("Project '" ++ p.title ++ "' has been completed.")) user.username] ∧
        findProject (mark_completed db pk user ct false).1 pk =
          some { p with status := ProjectStatus.COMPLETED,
                        completed_by := some user.id })) := by
  refine ⟨?_, ?_, ?_, ?_⟩
  · intro hs
    refine ⟨⟨?_, ?_⟩, ?_, ?_, ?_⟩
    · simp [accept_project, hp, hs, create_comment_and_notify]
    · simp [accept_project, hp, hs, create_comment_and_notify, saveProject,
        addLog, List.append_assoc]
    · simp [accept_project, hp, hs, create_comment_and_notify]
    · simp [accept_project, hp, hs, create_comment_and_notify, saveProject,
        addLog, List.append_assoc]
    · have hproj : (accept_project db pk user ct false).1.projects
          = db.projects.map (fun r => if r.id == p.id
              then { p with status := ProjectStatus.ACCEPTED, accepted_by := some user.id }
              else r) := by
        simp [accept_project, hp, hs, create_comment_and_notify, saveProject, addLog]
      exact findProject_after_replace db
        { p with status := ProjectStatus.ACCEPTED, accepted_by := some user.id }
        pk p hp rfl _ hproj
  · intro hs
    refine ⟨⟨?_, ?_⟩, ?_, ?_, ?_⟩
    · simp [reject_project, hp, hs, create_comment_and_notify]
    · simp [reject_project, hp, hs, create_comment_and_notify, saveProject,
        addLog, List.append_assoc]
    · simp [reject_project, hp, hs, create_comment_and_notify]
    · simp [reject_project, hp, hs, create_comment_and_notify, saveProject,
        addLog, List.append_assoc]
    · have hproj : (reject_project db pk user ct false).1.projects
          = db.projects.map (fun r => if r.id == p.id
              then { p with status := ProjectStatus.REJECTED }
              else r) := by
        simp [reject_project, hp, hs, create_comment_and_notify, saveProject, addLog]
      exact findProject_after_replace db
        { p with status := ProjectStatus.REJECTED }
        pk p hp rfl _ hproj
  · intro hs
    refine ⟨⟨?_, ?_⟩, ?_, ?_, ?_⟩
    · simp [start_project, hp, hs, create_comment_and_notify]
    · simp [start_project, hp, hs, create_comment_and_notify, saveProject,
        addLog, List.append_assoc]
    · simp [start_project, hp, hs, create_comment_and_notify]
    · simp [start_project, hp, hs, create_comment_and_notify, saveProject,
        addLog, List.append_assoc]
    · have hproj : (start_project db pk user ct false).1.projects
          = db.projects.map (fun r => if r.id == p.id
              then { p with status := ProjectStatus.IN_PROGRESS, started_by := some user.id }
              else r) := by
        simp [start_project, hp, hs, create_comment_and_notify, saveProject, addLog]
      exact findProject_after_replace db
        { p with status := ProjectStatus.IN_PROGRESS, started_by := some user.id }
        pk p hp rfl _ hproj
  · intro hs
    refine ⟨⟨?_, ?_⟩, ?_, ?_, ?_⟩
    · simp [mark_completed, hp, hs, create_comment_and_notify]
    · simp [mark_completed, hp, hs, create_comment_and_notify, saveProject,
        addLog, List.append_assoc]
    · simp [mark_completed, hp, hs, create_comment_and_notify]
    · simp [mark_completed, hp, hs, create_comment_and_notify, saveProject,
        addLog, List.append_assoc]
    · have hproj : (mark_completed db pk user ct false).1.projects
          = db.projects.map (fun r => if r.id == p.id
              then { p with status := ProjectStatus.COMPLETED, completed_by := some user.id }
              else r) := by
        simp [mark_completed, hp, hs, create_comment_and_notify, saveProject, addLog]
      exact findProject_after_replace db
        { p with status := ProjectStatus.COMPLETED, completed_by := some user.id }
        pk p hp rfl _ hproj

/-- C4 witness: accepting the one NEW project of a concrete store with
working mail produces exactly the trace persist → comment → email →
log; with failing mail the request ends in a server error and the row
is nevertheless ACCEPTED. -/
theorem C4_side_effect_order_witness :
    ((accept_project dbOne 1 userOne none true).1.trace =
      [Effect.persistProject 1 ["status", "accepted_by"],
       Effect.createComment 1 "Project 'Site' was accepted." "boss",
       Effect.sendEmail "Project 'Site' Accepted" "Project 'Site' was accepted."
         "ada@example.com",
       Effect.createLog "Project 'Site' accepted by boss." "Accept project"
         "boss"]) ∧
    ((accept_project dbOne 1 userOne none false).2 = HttpResult.serverError ∧
      findProject (accept_project dbOne 1 userOne none false).1 1 =
        some { projectOne with status := ProjectStatus.ACCEPTED,
                               accepted_by := some userOne.id }) := by
  obtain ⟨⟨hok, htr⟩, hfail, htr2, hfind⟩ :=
    (C4_side_effect_order dbOne 1 userOne none projectOne (by decide)).1 rfl
  refine ⟨?_, hfail, hfind⟩
  simpa [dbOne, DB.empty, projectOne, userOne] using htr

/-- C2 counterexample: `ProjectCreateSerializer` declares `status` as a
writable choice field, so the well-formed input `inputAccepted`
(differing from a plain input only by submitting `status = ACCEPTED`,
which is among the serializer's choices) is accepted by the create
endpoint, and the persisted project's status is ACCEPTED, not NEW. -/
theorem C2_status_not_forced_counterexample :
    (createProject dbOne 40 2 inputAccepted true).2 =
      CreateResult.created projectAccepted2 ∧
    projectAccepted2.status ≠ ProjectStatus.NEW := by
  exact ⟨by decide, by decide⟩

/-- C2 amended: for every well-formed creation input that leaves the
status field at its default (absent or explicitly NEW), the persisted
project has status NEW, the confirmation notification goes to the
submitted contact address, and one audit-log entry is created. -/
theorem C2_create_project_defaults (db : DB) (today nextId : Nat)
    (input : ProjectCreateInput) (hd : today ≤ input.deadline)
    (hs : input.status = none ∨ input.status = some ProjectStatus.NEW) :
    ∃ p, (createProject db today nextId input true).2 = CreateResult.created p ∧
      p.status = ProjectStatus.NEW ∧
      (createProject db today nextId input true).1.projects = db.projects ++ [p] ∧
      (createProject db today nextId input true).1.emails = db.emails ++
        [⟨"Thank you for your project proposal",
          "We received your proposal '" ++ input.title ++ "'. Our team will review it soon.",
          input.contact_email⟩] ∧
      (createProject db today nextId input true).1.logs = db.logs ++
        [⟨"Project '" ++ input.title ++ "' with priority '" ++
            (input.priority.getD ProjectPriority.MEDIUM).toStr ++ "' created by " ++
            input.sender_name ++ ".", "Create project", input.sender_name⟩] := by
  have hv : validate_deadline today input.deadline = Except.ok input.deadline := by
    unfold validate_deadline
    rw [if_neg (by omega)]
  refine ⟨{ id := nextId
            title := input.title
            description := input.description
            budget := input.budget
            deadline := input.deadline
            sender_name := input.sender_name
            contact_email := input.contact_email
            category := input.category
            status := ProjectStatus.NEW
            priority := input.priority.getD ProjectPriority.MEDIUM
            accepted_by := none
            started_by := none
            completed_by := none }, ?_, rfl, ?_, ?_, ?_⟩ <;>
    rcases hs with h | h <;>
      simp [createProject, hv, h, addLog]

/-- C2 amended witness: creating from a concrete status-less input on a
concrete store persists a NEW project, emails the submitter and writes
one log row. -/
theorem C2_create_project_defaults_witness :
    ∃ p, (createProject dbOne 40 2 inputOne true).2 = CreateResult.created p ∧
      p.status = ProjectStatus.NEW ∧
      (createProject dbOne 40 2 inputOne true).1.projects = dbOne.projects ++ [p] ∧
      (createProject dbOne 40 2 inputOne true).1.emails = dbOne.emails ++
        [⟨"Thank you for your project proposal",
          "We received your proposal '" ++ inputOne.title ++ "'. Our team will review it soon.",
          inputOne.contact_email⟩] ∧
      (createProject dbOne 40 2 inputOne true).1.logs = dbOne.logs ++
        [⟨"Project '" ++ inputOne.title ++ "' with priority '" ++
            (inputOne.priority.getD ProjectPriority.MEDIUM).toStr ++ "' created by " ++
            inputOne.sender_name ++ ".", "Create project", inputOne.sender_name⟩] :=
  C2_create_project_defaults dbOne 40 2 inputOne (by decide) (Or.inl rfl)

/-- The relation `forwardReach` is reflexive. -/
theorem forwardReach_refl : ∀ s, forwardReach s s = true := by decide

/-- The relation `forwardReach` is transitive. -/
theorem forwardReach_trans : ∀ a b c, forwardReach a b = true →
    forwardReach b c = true → forwardReach a c = true := by decide

/-- Nothing is ahead of `REJECTED` or `COMPLETED` except itself. -/
theorem forwardReach_terminal : ∀ s t,
    (s = ProjectStatus.REJECTED ∨ s = ProjectStatus.COMPLETED) →
    forwardReach s t = true → t = s := by decide

/-- Looking up `pk` after replacing the row with id `q.id` yields `q`
when the old row at `pk` carried that id, and the old row otherwise. -/
theorem findProject_replaced (db db' : DB) (q : Project) (pk : Nat)
    (p : Project) (hp : findProject db pk = some p)
    (hl : db'.projects = db.projects.map (fun r => if r.id == q.id then q else r)) :
    findProject db' pk = some (if p.id == q.id then q else p) := by
  unfold findProject
  rw [hl, find?_replace]
  unfold findProject at hp
  rw [hp]
  rfl

/-- One transition request maps the row at any pk along `forwardReach`:
it either leaves the row alone or moves its status down one lifecycle
edge. -/
theorem applyOp_find (db : DB) (op : Op) (pk : Nat) (p : Project)
    (hp : findProject db pk = some p) :
    ∃ p', findProject (applyOp db op) pk = some p' ∧
      forwardReach p.status p'.status = true := by
  have same : ∀ db2 : DB, db2 = db →
      ∃ p', findProject db2 pk = some p' ∧ forwardReach p.status p'.status = true := by
    intro db2 h
    exact ⟨p, h ▸ hp, forwardReach_refl p.status⟩
  have moved : ∀ (db2 : DB) (pk0 : Nat) (p0 q : Project),
      findProject db pk0 = some p0 → q.id = p0.id →
      forwardReach p0.status q.status = true →
      db2.projects = db.projects.map (fun r => if r.id == q.id then q else r) →
      ∃ p', findProject db2 pk = some p' ∧ forwardReach p.status p'.status = true := by
    intro db2 pk0 p0 q h0 hqid hfr hl
    refine ⟨_, findProject_replaced db db2 q pk p hp hl, ?_⟩
    by_cases hid : p.id == q.id
    · have hpq : p.id = q.id := by simpa using hid
      have hpk : p.id = pk := findProject_id db pk p hp
      have hpk0 : p0.id = pk0 := findProject_id db pk0 p0 h0
      have hkk : pk = pk0 := by omega
      have hpp0 : p = p0 := by
        rw [hkk] at hp
        rw [hp] at h0
        exact Option.some.inj h0
      simp only [hid, if_pos]
      rw [hpp0]
      exact hfr
    · simp [hid]
      exact forwardReach_refl p.status
  cases op with
  | accept pk0 u ct e =>
    rcases h0 : findProject db pk0 with _ | p0
    · apply same
      simp [applyOp, accept_project, h0]
    · by_cases hg : p0.status = ProjectStatus.NEW
      · refine moved _ pk0 p0
          { p0 with status := ProjectStatus.ACCEPTED, accepted_by := some u.id }
          h0 rfl (by rw [hg]; rfl) ?_
        cases e <;>
          simp [applyOp, accept_project, h0, hg, create_comment_and_notify,
            saveProject, addLog]
      · apply same
        simp [applyOp, accept_project, h0, hg]
  | reject pk0 u ct e =>
    rcases h0 : findProject db pk0 with _ | p0
    · apply same
      simp [applyOp, reject_project, h0]
    · by_cases hg : p0.status = ProjectStatus.NEW
      · refine moved _ pk0 p0
          { p0 with status := ProjectStatus.REJECTED }
          h0 rfl (by rw [hg]; rfl) ?_
        cases e <;>
          simp [applyOp, reject_project, h0, hg, create_comment_and_notify,
            saveProject, addLog]
      · apply same
        simp [applyOp, reject_project, h0, hg]
  | start pk0 u ct e =>
    rcases h0 : findProject db pk0 with _ | p0
    · apply same
      simp [applyOp, start_project, h0]
    · by_cases hg : p0.status = ProjectStatus.ACCEPTED
      · refine moved _ pk0 p0
          { p0 with status := ProjectStatus.IN_PROGRESS, started_by := some u.id }
          h0 rfl (by rw [hg]; rfl) ?_
        cases e <;>
          simp [applyOp, start_project, h0, hg, create_comment_and_notify,
            saveProject, addLog]
      · apply same
        simp [applyOp, start_project, h0, hg]
  | complete pk0 u ct e =>
    rcases h0 : findProject db pk0 with _ | p0
    · apply same
      simp [applyOp, mark_completed, h0]
    · by_cases hg : p0.status = ProjectStatus.IN_PROGRESS
      · refine moved _ pk0 p0
          { p0 with status := ProjectStatus.COMPLETED, completed_by := some u.id }
          h0 rfl (by rw [hg]; rfl) ?_
        cases e <;>
          simp [applyOp, mark_completed, h0, hg, create_comment_and_notify,
            saveProject, addLog]
      · apply same
        simp [applyOp, mark_completed, h0, hg]

/-- C3: the status is one-directional.  Across any sequence of
transition requests, the status of the row at any pk only moves forward
along `NEW → ACCEPTED → IN_PROGRESS → COMPLETED` / `NEW → REJECTED`
(the `forwardReach` order, in which REJECTED is reachable only from
NEW), and a REJECTED or COMPLETED row never changes status again. -/
theorem C3_one_directional_lifecycle (ops : List Op) (db : DB) (pk : Nat)
    (p p' : Project) (hp : findProject db pk = some p)
    (hp' : findProject (applyOps db ops) pk = some p') :
    forwardReach p.status p'.status = true ∧
    ((p.status = ProjectStatus.REJECTED ∨ p.status = ProjectStatus.COMPLETED) →
      p'.status = p.status) := by
  have main : forwardReach p.status p'.status = true := by
    induction ops generalizing db p with
    | nil =>
      have hnil : applyOps db [] = db := rfl
      rw [hnil] at hp'
      rw [hp] at hp'
      rw [Option.some.inj hp']
      exact forwardReach_refl p'.status
    | cons op ops ih =>
      obtain ⟨pm, hm, hstep⟩ := applyOp_find db op pk p hp
      have hfold : applyOps db (op :: ops) = applyOps (applyOp db op) ops := rfl
      rw [hfold] at hp'
      exact forwardReach_trans _ _ _ hstep (ih (applyOp db op) pm hm hp')
  exact ⟨main, fun hterm => forwardReach_terminal p.status p'.status hterm main⟩

/-- C3 witness: accept then start on a concrete store moves the NEW
project to IN_PROGRESS, a forward path. -/
theorem C3_one_directional_lifecycle_witness :
    forwardReach projectOne.status projectOneStarted.status = true ∧
    ((projectOne.status = ProjectStatus.REJECTED ∨
        projectOne.status = ProjectStatus.COMPLETED) →
      projectOneStarted.status = projectOne.status) :=
  C3_one_directional_lifecycle opsAcceptStart dbOne 1 projectOne projectOneStarted
    (by decide) (by decide)

end CRM
